import Mathlib

/-!
Shallow embedding of the spx reverse proxy (src/main.rs, src/config.rs,
src/proxy.rs, src/server.rs) and proofs about its connection and routing
pipeline.  Pure data and control flow are translated directly; the
asynchronous environment (DNS answers, TCP connect outcomes, accept results,
TLS handshake outcomes, file loads) is passed in explicitly as function or
list parameters, so every definition is executable.
-/

namespace Spx

/-- Kinds of I/O errors, mirroring the variants of std::io::ErrorKind that
src/server.rs inspects, plus a catch-all carrying a numeric code. -/
inductive ErrorKind where
  | connectionRefused
  | connectionAborted
  | connectionReset
  | invalidInput
  | other (code : Nat)
deriving DecidableEq

/-- A std::io::Error: its kind and its display text. -/
structure IoError where
  kind : ErrorKind
  msg : String
deriving DecidableEq

/-- An IP address (the v4 quad is enough for the embedding). -/
inductive IpAddr where
  | v4 (a b c d : Nat)
deriving DecidableEq

/-- A std::net::SocketAddr: an IP address paired with a port. -/
structure SocketAddr where
  ip : IpAddr
  port : Nat
deriving DecidableEq

/-- A trust-dns protocol-level resolution error, kept abstract. -/
structure DnsError where
  code : Nat
deriving DecidableEq

/-- resolver::Error from src/proxy.rs: wraps either the OS resolver's
io::Error or trust-dns's ResolveError. -/
inductive ResolveError where
  | System (e : IoError)
  | TrustDns (e : DnsError)
deriving DecidableEq

/-- The Display impl of resolver::Error (src/proxy.rs lines 231-235): it
writes the fixed string, independent of the variant and of the host. -/
def resolveErrorMessage (_e : ResolveError) : String :=
  "failed to resolve DNS name"

/-- The dynamic error value exposed through std::error::Error::source. -/
inductive ErrorSource where
  | osErr (e : IoError)
  | dnsErr (e : DnsError)
deriving DecidableEq

/-- The source impl of resolver::Error (src/proxy.rs lines 237-244):
always Some of the wrapped underlying error. -/
def ResolveError.sourceErr : ResolveError → Option ErrorSource
  | .System e => some (.osErr e)
  | .TrustDns e => some (.dnsErr e)

/-- NoHostError from src/proxy.rs: a unit struct. -/
inductive NoHostError where
  | mk
deriving DecidableEq

/-- The Display impl of NoHostError (src/proxy.rs lines 139-143). -/
def noHostErrorMessage (_e : NoHostError) : String :=
  "URI did not contain host"

/-- ConnectorError from src/proxy.rs lines 113-118. -/
inductive ConnectorError where
  | NoHost (e : NoHostError)
  | Dns (e : ResolveError)
  | Tcp (e : IoError)
deriving DecidableEq

/-- The parts of hyper's http::Uri that Connector::call reads: host,
explicit port, and scheme. -/
structure Uri where
  host : Option String
  port : Option Nat
  scheme : Option String
deriving DecidableEq

/-- Boolean success test for an Except value. -/
def okB {ε α : Type} : Except ε α → Bool
  | .ok _ => true
  | .error _ => false

/-- The error tokio's TcpStream::connect reports when given an empty
address list. -/
def noAddrError : IoError :=
  { kind := .invalidInput, msg := "could not resolve to any address" }

/-- The loop inside tokio's TcpStream::connect over a list of addresses:
try each address in order, return the first success, otherwise the last
error (or noAddrError if the list was empty).  The network is passed in as
a function giving each attempt's outcome.  The first component records the
addresses actually attempted, in order. -/
def connectLoop (net : SocketAddr → Except IoError Unit) :
    List SocketAddr → Option IoError → List SocketAddr × Except IoError SocketAddr
  | [], last => ([], .error (last.getD noAddrError))
  | a :: rest, _last =>
    match net a with
    | .ok _ => ([a], .ok a)
    | .error e =>
      let r := connectLoop net rest (some e)
      (a :: r.1, r.2)

/-- tokio's TcpStream::connect on a slice of socket addresses. -/
def tcpConnect (net : SocketAddr → Except IoError Unit)
    (addrs : List SocketAddr) : List SocketAddr × Except IoError SocketAddr :=
  connectLoop net addrs none

/-- The port computation of Connector::call (src/proxy.rs lines 93-96):
the URI's explicit port if present, else 443 for the https scheme and 80
otherwise. -/
def connectPort (uri : Uri) : Nat :=
  match uri.port with
  | some p => p
  | none => if uri.scheme = some "https" then 443 else 80

/-- Connector::call from src/proxy.rs lines 89-110.  The resolver and the
network are passed in as functions; a successful connection is identified
by the address it was made to.  The first component records the addresses
attempted, in order. -/
def Connector.call (resolve : String → Except ResolveError (List IpAddr))
    (net : SocketAddr → Except IoError Unit) (uri : Uri) :
    List SocketAddr × Except ConnectorError SocketAddr :=
  match uri.host with
  | none => ([], .error (.NoHost .mk))
  | some host =>
    match resolve host with
    | .error e => ([], .error (.Dns e))
    | .ok ips =>
      let addresses := ips.map fun ip => SocketAddr.mk ip (connectPort uri)
      let r := tcpConnect net addresses
      (r.1, r.2.mapError ConnectorError.Tcp)

/-- The parts of an inbound HTTP request that the proxy policy reads.
Header values are lists of characters. -/
structure Request where
  host : List Char
  userAgent : List Char
deriving DecidableEq

/-- An HTTP response, kept abstract. -/
structure Response where
  status : Nat
deriving DecidableEq

/-- Either a panic (with its message) or a value: the observable outcome
of running a Rust function that may panic. -/
inductive PanicOr (α : Type) where
  | panicked (msg : String)
  | value (a : α)
deriving DecidableEq

/-- Proxy::call as written in src/proxy.rs lines 70-73: the body is
`todo!()`, which panics with the message "not yet implemented".  The second
component counts Connector invocations performed for the request. -/
def Proxy.call (_req : Request) : PanicOr Response × Nat :=
  (.panicked "not yet implemented", 0)

/-- Modelled from the spec: the routing rule that the body of Proxy::call
(left as `todo!()` in src/proxy.rs) is specified to implement.  Spec 4.3:
compute the suffix "." ++ base_domain; a Host header that ends with exactly
that suffix routes to the remaining prefix, taken verbatim including
embedded dots; any other Host header is rejected (returns none). -/
def route (base h : List Char) : Option (List Char) :=
  if h.drop (h.length - ('.' :: base).length) = '.' :: base
  then some (h.take (h.length - ('.' :: base).length)) else none

/-- The static per-proxy state the routing policy reads: the base domain
and the compiled deny_user_agents regex, the latter modelled as its
matching function. -/
structure ProxyConfig where
  domain : List Char
  denyUserAgents : List Char → Bool

/-- The per-request outcome of the proxy policy. -/
inductive ProxyOutcome where
  | rejectedHost
  | rejectedUserAgent
  | forwarded (upstream : List Char)
deriving DecidableEq

/-- Modelled from the spec: the request-handling policy that the body of
Proxy::call (left as `todo!()` in src/proxy.rs) is specified to implement.
Spec 4.3: derive the upstream host from the Host header (rejecting hosts
not under the base domain), reject requests whose User-Agent matches the
deny regex before any outbound connection is attempted, and otherwise
forward through the Connector.  The second component counts Connector
invocations performed for the request. -/
def handleRequest (cfg : ProxyConfig) (req : Request) : ProxyOutcome × Nat :=
  match route cfg.domain req.host with
  | none => (.rejectedHost, 0)
  | some upstream =>
    if cfg.denyUserAgents req.userAgent then (.rejectedUserAgent, 0)
    else (.forwarded upstream, 1)

/-- One outcome of listener.accept(): a new connection (identified by a
number) or an I/O error. -/
inductive AcceptResult where
  | ok (conn : Nat)
  | err (e : IoError)
deriving DecidableEq

/-- Observable side effects of the accept loop: a log line, or a sleep of
the given number of seconds. -/
inductive AcceptEvent where
  | logged (msg : String)
  | slept (secs : Nat)
deriving DecidableEq

/-- The error kinds that accept_tcp in src/server.rs lines 166-172 treats
as transient and silently ignores. -/
def isTransient (k : ErrorKind) : Bool :=
  match k with
  | .connectionRefused => true
  | .connectionAborted => true
  | .connectionReset => true
  | _ => false

/-- accept_tcp from src/server.rs lines 162-179, run against a script of
accept outcomes: loop until an accept succeeds, silently skipping transient
errors and logging plus sleeping one second on any other error.  Returns
the emitted events and the accepted connection (none if the script ran out
before any success, i.e. the loop is still waiting). -/
def accept_tcp : List AcceptResult → List AcceptEvent × Option Nat
  | [] => ([], none)
  | .ok conn :: _ => ([], some conn)
  | .err e :: rest =>
    if isTransient e.kind then accept_tcp rest
    else
      let r := accept_tcp rest
      (.logged ("failed to accept: " ++ e.msg) :: .slept 1 :: r.1, r.2)

/-- The events accept_tcp emits for a single accept error: nothing for a
transient error, a log line followed by a one-second sleep otherwise. -/
def acceptErrEvents (e : IoError) : List AcceptEvent :=
  if isTransient e.kind then []
  else [.logged ("failed to accept: " ++ e.msg), .slept 1]

/-- A TLS handshake failure, kept abstract. -/
structure HandshakeError where
  code : Nat
deriving DecidableEq

/-- The environment's behaviour for one accepted HTTPS connection: how many
milliseconds the TLS handshake takes to complete, and its result (a stream
identified by a number, or a handshake error). -/
structure TlsConnInput where
  handshakeMs : Nat
  handshake : Except HandshakeError Nat

/-- tokio's time::timeout: the wrapped future's result if it completes
within the limit, none if the timeout elapses first. -/
def timeoutWithin {α : Type} (limitMs elapsedMs : Nat) (result : α) : Option α :=
  if elapsedMs ≤ limitMs then some result else none

/-- What happens to one accepted HTTPS connection. -/
inductive ConnOutcome where
  | served (stream : Nat)
  | dropped
deriving DecidableEq

/-- The per-connection task spawned by serve_https (src/server.rs lines
88-94): run the TLS handshake under a 200 ms timeout; on success serve the
stream (whose own logging is the parameter serveLogs), on handshake error
or timeout return silently.  The second component is everything the task
logs. -/
def httpsConnTask (serveLogs : Nat → List String) (c : TlsConnInput) :
    ConnOutcome × List String :=
  match timeoutWithin 200 c.handshakeMs c.handshake with
  | some (.ok s) => (.served s, serveLogs s)
  | some (.error _) => (.dropped, [])
  | none => (.dropped, [])

/-- The accept loop of serve_https (src/server.rs lines 82-95) run over a
script of accepted connections: every accepted connection gets its own
independent task. -/
def serve_https (serveLogs : Nat → List String) (conns : List TlsConnInput) :
    List (ConnOutcome × List String) :=
  conns.map (httpsConnTask serveLogs)

/-- The state the certificate-refresh machinery acts on: the shared cell
holding the current acceptor (identified by a number), the error log, and
whether the server is still running. -/
structure TlsState where
  cell : Nat
  logs : List String
  running : Bool
deriving DecidableEq

/-- Observable steps of the certificate-refresh task. -/
inductive RefreshEvent where
  | slept (d : Nat)
  | attempted
deriving DecidableEq

/-- The task spawned by refreshed_tls (src/server.rs lines 101-112), run to
completion: sleep for the refresh interval, then attempt one certificate
reload (its result is the parameter load); on success replace the cell's
contents, on failure log the error and leave the cell unchanged.  Returns
the final state and the trace of steps the task performed.  Note the source
contains no loop: the task ends after this single attempt. -/
def refreshed_tls_task (refresh : Nat) (load : Except String Nat) (s : TlsState) :
    TlsState × List RefreshEvent :=
  (match load with
   | .ok a => { cell := a, logs := s.logs, running := s.running }
   | .error e => { cell := s.cell, logs := s.logs ++ [e], running := s.running },
   [.slept refresh, .attempted])

/-- Fixture: a first resolved address. -/
def ipA : IpAddr := .v4 10 0 0 1

/-- Fixture: a second resolved address. -/
def ipB : IpAddr := .v4 10 0 0 2

/-- Fixture: a third resolved address. -/
def ipC : IpAddr := .v4 10 0 0 3

/-- Fixture: an https URI with a host and no explicit port. -/
def exUri : Uri := { host := some "example.com", port := none, scheme := some "https" }

/-- Fixture: a resolver answering every query with three addresses. -/
def exResolve : String → Except ResolveError (List IpAddr) := fun _ => .ok [ipA, ipB, ipC]

/-- Fixture: a network where only connections to ipB succeed. -/
def exNet : SocketAddr → Except IoError Unit := fun a =>
  if a.ip = ipB then .ok ()
  else .error { kind := .connectionRefused, msg := "refused" }

/-- Mapping the error of an Except value does not affect success. -/
lemma mapError_ok_iff {ε ε' α : Type} (f : ε → ε') (r : Except ε α) (a : α) :
    r.mapError f = .ok a ↔ r = .ok a := by
  cases r <;> simp [Except.mapError]

/-- Wrapping an I/O error as ConnectorError.Tcp is injective on errors. -/
lemma mapError_tcp_error_iff (r : Except IoError SocketAddr) (e : IoError) :
    r.mapError ConnectorError.Tcp = .error (.Tcp e) ↔ r = .error e := by
  cases r <;> simp [Except.mapError]

/-- A TCP-wrapped result is never the NoHost error. -/
lemma mapError_tcp_ne_noHost (r : Except IoError SocketAddr) :
    r.mapError ConnectorError.Tcp ≠ .error (.NoHost .mk) := by
  cases r <;> simp [Except.mapError]

/-- A TCP-wrapped result is never a Dns error. -/
lemma mapError_tcp_ne_dns (r : Except IoError SocketAddr) (e : ResolveError) :
    r.mapError ConnectorError.Tcp ≠ .error (.Dns e) := by
  cases r <;> simp [Except.mapError]

/-- The addresses connectLoop attempts are exactly the failing prefix of the
list followed by the first succeeding address, if any. -/
lemma connectLoop_trace (net : SocketAddr → Except IoError Unit)
    (l : List SocketAddr) (last : Option IoError) :
    (connectLoop net l last).1
      = l.takeWhile (fun a => !okB (net a)) ++ (l.find? fun a => okB (net a)).toList := by
  induction l generalizing last with
  | nil => rfl
  | cons a rest ih =>
    cases hna : net a with
    | ok u => simp [connectLoop, hna, okB, List.takeWhile_cons, List.find?_cons]
    | error e => simp [connectLoop, hna, okB, List.takeWhile_cons, List.find?_cons, ih]

/-- connectLoop succeeds with an address exactly when that address is the
first one in the list that the network accepts. -/
lemma connectLoop_ok_iff (net : SocketAddr → Except IoError Unit)
    (l : List SocketAddr) (last : Option IoError) (a : SocketAddr) :
    (connectLoop net l last).2 = .ok a ↔ l.find? (fun x => okB (net x)) = some a := by
  induction l generalizing last with
  | nil => simp [connectLoop]
  | cons b rest ih =>
    cases hnb : net b with
    | ok u => simp [connectLoop, hnb, okB, List.find?_cons]
    | error e => simp [connectLoop, hnb, okB, List.find?_cons, ih]

/-- connectLoop fails exactly when no address in the list is accepted. -/
lemma connectLoop_error_iff (net : SocketAddr → Except IoError Unit)
    (l : List SocketAddr) (last : Option IoError) :
    (∃ e, (connectLoop net l last).2 = .error e)
      ↔ l.find? (fun x => okB (net x)) = none := by
  constructor
  · rintro ⟨e, he⟩
    cases hf : l.find? (fun x => okB (net x)) with
    | none => rfl
    | some a =>
      rw [← connectLoop_ok_iff net l last a] at hf
      rw [hf] at he
      cases he
  · intro hf
    cases hr : (connectLoop net l last).2 with
    | ok a =>
      exfalso
      rw [connectLoop_ok_iff] at hr
      rw [hr] at hf
      cases hf
    | error e => exact ⟨e, rfl⟩

/-- C1: route returns some upstream exactly when the Host header is that
upstream followed by "." and the base domain (the prefix taken verbatim,
embedded dots included); and the request-handling policy rejects the Host
header exactly when route returns none, so every Host header not of that
form is rejected. -/
theorem route_host_characterization (base h p ua : List Char)
    (deny : List Char → Bool) :
    (route base h = some p ↔ h = p ++ '.' :: base)
    ∧ ((handleRequest ⟨base, deny⟩ ⟨h, ua⟩).1 = .rejectedHost
        ↔ route base h = none) := by
  constructor
  · constructor
    · intro hr
      unfold route at hr
      split at hr
      case isTrue hc =>
        injection hr with hp
        calc h = h.take (h.length - ('.' :: base).length)
                  ++ h.drop (h.length - ('.' :: base).length) :=
              (List.take_append_drop _ _).symm
          _ = p ++ '.' :: base := by rw [hp, hc]
      case isFalse hc => cases hr
    · intro he
      subst he
      unfold route
      have hlen : (p ++ '.' :: base).length - ('.' :: base).length = p.length := by
        simp [List.length_append]
      rw [hlen, List.drop_left, List.take_left]
      simp
  · cases hro : route base h with
    | none => simp [handleRequest, hro]
    | some up =>
      by_cases hd : deny ua <;> simp [handleRequest, hro, hd]

/-- C2: Proxy::call as written panics on every request with the todo
message, returns no response, and performs no Connector invocation. -/
theorem proxy_call_panics (req : Request) :
    (Proxy.call req).1 = .panicked "not yet implemented"
    ∧ (∀ r : Response, (Proxy.call req).1 ≠ .value r)
    ∧ (Proxy.call req).2 = 0 := by
  refine ⟨rfl, fun r => ?_, rfl⟩
  simp [Proxy.call]

/-- C3: a request whose User-Agent matches the deny regex is rejected and
the Connector is invoked zero times for it. -/
theorem deny_user_agent_no_connect (base : List Char) (deny : List Char → Bool)
    (h ua : List Char) (hm : deny ua = true) :
    (handleRequest ⟨base, deny⟩ ⟨h, ua⟩).2 = 0
    ∧ ((handleRequest ⟨base, deny⟩ ⟨h, ua⟩).1 = .rejectedHost
       ∨ (handleRequest ⟨base, deny⟩ ⟨h, ua⟩).1 = .rejectedUserAgent) := by
  cases hro : route base h with
  | none => simp [handleRequest, hro]
  | some up => simp [handleRequest, hro, hm]

/-- Witness for C3: a concrete denied User-Agent is rejected with zero
Connector invocations. -/
theorem deny_user_agent_no_connect_witness :
    (fun s => s == "crawler".toList) "crawler".toList = true
    ∧ ((handleRequest ⟨"example.com".toList, fun s => s == "crawler".toList⟩
          ⟨"x.example.com".toList, "crawler".toList⟩).2 = 0
       ∧ ((handleRequest ⟨"example.com".toList, fun s => s == "crawler".toList⟩
             ⟨"x.example.com".toList, "crawler".toList⟩).1 = .rejectedHost
          ∨ (handleRequest ⟨"example.com".toList, fun s => s == "crawler".toList⟩
             ⟨"x.example.com".toList, "crawler".toList⟩).1 = .rejectedUserAgent)) :=
  ⟨by decide,
   deny_user_agent_no_connect "example.com".toList (fun s => s == "crawler".toList)
     "x.example.com".toList "crawler".toList (by decide)⟩

/-- C4: when the URI has a host and resolution succeeds, Connector::call
connects to port: explicit URI port if present, else 443 for https and 80
otherwise; it attempts the resolved addresses in exactly the order the
resolver returned them, without reordering or deduplicating (the attempt
trace is the failing prefix followed by the first success), stops at the
first success, and returns that connection. -/
theorem connector_connect_order (resolve : String → Except ResolveError (List IpAddr))
    (net : SocketAddr → Except IoError Unit) (uri : Uri) (host : String)
    (ips : List IpAddr) (hh : uri.host = some host) (hr : resolve host = .ok ips) :
    (Connector.call resolve net uri).1
      = (ips.map fun ip => SocketAddr.mk ip (connectPort uri)).takeWhile
          (fun a => !okB (net a))
        ++ ((ips.map fun ip => SocketAddr.mk ip (connectPort uri)).find?
             fun a => okB (net a)).toList
    ∧ (∀ a, ((Connector.call resolve net uri).2 = .ok a
        ↔ (ips.map fun ip => SocketAddr.mk ip (connectPort uri)).find?
            (fun x => okB (net x)) = some a))
    ∧ (∀ p, uri.port = some p → connectPort uri = p)
    ∧ (uri.port = none → uri.scheme = some "https" → connectPort uri = 443)
    ∧ (uri.port = none → uri.scheme ≠ some "https" → connectPort uri = 80) := by
  refine ⟨?_, ?_, ?_, ?_, ?_⟩
  · simp [Connector.call, hh, hr, tcpConnect, connectLoop_trace]
  · intro a
    simp only [Connector.call, hh, hr, tcpConnect]
    rw [mapError_ok_iff, connectLoop_ok_iff]
  · intro p hp
    simp [connectPort, hp]
  · intro hp hs
    simp [connectPort, hp, hs]
  · intro hp hs
    simp [connectPort, hp, hs]

/-- Witness for C4: against a resolver returning three addresses of which
only the second accepts connections, Connector::call behaves as the C4
theorem states. -/
theorem connector_connect_order_witness :
    exUri.host = some "example.com"
    ∧ exResolve "example.com" = .ok [ipA, ipB, ipC]
    ∧ ((Connector.call exResolve exNet exUri).1
        = ([ipA, ipB, ipC].map fun ip => SocketAddr.mk ip (connectPort exUri)).takeWhile
            (fun a => !okB (exNet a))
          ++ (([ipA, ipB, ipC].map fun ip => SocketAddr.mk ip (connectPort exUri)).find?
               fun a => okB (exNet a)).toList
      ∧ (∀ a, ((Connector.call exResolve exNet exUri).2 = .ok a
          ↔ ([ipA, ipB, ipC].map fun ip => SocketAddr.mk ip (connectPort exUri)).find?
              (fun x => okB (exNet x)) = some a))
      ∧ (∀ p, exUri.port = some p → connectPort exUri = p)
      ∧ (exUri.port = none → exUri.scheme = some "https" → connectPort exUri = 443)
      ∧ (exUri.port = none → exUri.scheme ≠ some "https" → connectPort exUri = 80)) :=
  ⟨rfl, rfl,
   connector_connect_order exResolve exNet exUri "example.com" [ipA, ipB, ipC] rfl rfl⟩

/-- C5: Connector::call fails with NoHost exactly when the URI has no host;
with Dns e exactly when the host is present and resolution fails with e;
and with some Tcp error exactly when resolution succeeds and every address
in the resolved list is refused by the network. -/
theorem connector_error_cases (resolve : String → Except ResolveError (List IpAddr))
    (net : SocketAddr → Except IoError Unit) (uri : Uri) :
    ((Connector.call resolve net uri).2 = .error (.NoHost .mk) ↔ uri.host = none)
    ∧ (∀ e, ((Connector.call resolve net uri).2 = .error (.Dns e)
        ↔ ∃ h, uri.host = some h ∧ resolve h = .error e))
    ∧ ((∃ e, (Connector.call resolve net uri).2 = .error (.Tcp e))
        ↔ ∃ h ips, uri.host = some h ∧ resolve h = .ok ips
          ∧ ∀ a ∈ ips.map fun ip => SocketAddr.mk ip (connectPort uri),
              okB (net a) = false) := by
  cases hh : uri.host with
  | none =>
    refine ⟨by simp [Connector.call, hh], fun e => by simp [Connector.call, hh], ?_⟩
    simp [Connector.call, hh]
  | some host =>
    cases hres : resolve host with
    | error e0 =>
      refine ⟨by simp [Connector.call, hh, hres], fun e => ?_, ?_⟩
      · simp [Connector.call, hh, hres]
      · simp [Connector.call, hh, hres]
    | ok ips =>
      refine ⟨?_, fun e => ?_, ?_⟩
      · simp only [Connector.call, hh, hres, tcpConnect]
        exact iff_of_false (mapError_tcp_ne_noHost _) (by simp)
      · simp only [Connector.call, hh, hres, tcpConnect]
        refine iff_of_false (mapError_tcp_ne_dns _ _) ?_
        rintro ⟨h1, hh1, hr1⟩
        cases hh1
        rw [hres] at hr1
        cases hr1
      · simp only [Connector.call, hh, hres, tcpConnect]
        constructor
        · rintro ⟨e, he⟩
          rw [mapError_tcp_error_iff] at he
          have hnone : (ips.map fun ip => SocketAddr.mk ip (connectPort uri)).find?
              (fun x => okB (net x)) = none :=
            (connectLoop_error_iff net _ none).mp ⟨e, he⟩
          rw [List.find?_eq_none] at hnone
          exact ⟨host, ips, rfl, hres, fun a ha => by
            have := hnone a ha
            simpa using this⟩
        · rintro ⟨h1, ips1, hh1, hr1, hall⟩
          cases hh1
          rw [hres] at hr1
          cases hr1
          have hnone : (ips.map fun ip => SocketAddr.mk ip (connectPort uri)).find?
              (fun x => okB (net x)) = none := by
            rw [List.find?_eq_none]
            intro a ha
            simpa using hall a ha
          obtain ⟨e, he⟩ := (connectLoop_error_iff net _ none).mpr hnone
          exact ⟨e, by rw [mapError_tcp_error_iff]; exact he⟩

/-- C6: the task spawned by refreshed_tls performs exactly one sleep
followed by exactly one reload attempt and then ends; its complete step
trace is that two-element list, so no second refresh attempt ever occurs,
contradicting the claim that the refresh repeats after every interval. -/
theorem refresh_task_single_attempt (refresh : Nat) (load : Except String Nat)
    (s : TlsState) :
    (refreshed_tls_task refresh load s).2 = [.slept refresh, .attempted] := rfl

/-- C7: when the certificate reload fails, the error is appended to the
log, the shared cell still holds the acceptor that was in force before the
attempt, and the server's running state is unchanged. -/
theorem refresh_failure_keeps_snapshot (refresh : Nat) (e : String) (s : TlsState) :
    ((refreshed_tls_task refresh (.error e) s).1.cell = s.cell)
    ∧ ((refreshed_tls_task refresh (.error e) s).1.logs = s.logs ++ [e])
    ∧ ((refreshed_tls_task refresh (.error e) s).1.running = s.running) :=
  ⟨rfl, rfl, rfl⟩

/-- C8: running the accept loop against any script of accept errors
followed by further outcomes, the loop consumes every error without
terminating: each transient error (refused, aborted, reset) contributes no
events, each other error contributes exactly a log line and a one second
sleep, and the loop then behaves on the remaining script as if the errors
had not happened; in particular a subsequent successful accept is still
served. -/
theorem accept_loop_resilient (errs : List IoError) (rest : List AcceptResult) (c : Nat) :
    accept_tcp (errs.map AcceptResult.err ++ rest)
      = ((errs.map acceptErrEvents).flatten ++ (accept_tcp rest).1, (accept_tcp rest).2)
    ∧ (accept_tcp (errs.map AcceptResult.err ++ AcceptResult.ok c :: rest)).2 = some c := by
  have main : ∀ (errs : List IoError) (rest : List AcceptResult),
      accept_tcp (errs.map AcceptResult.err ++ rest)
        = ((errs.map acceptErrEvents).flatten ++ (accept_tcp rest).1, (accept_tcp rest).2) := by
    intro errs
    induction errs with
    | nil => intro rest; simp
    | cons e es ih =>
      intro rest
      by_cases ht : isTransient e.kind
      · simp [accept_tcp, acceptErrEvents, ht, ih]
      · simp [accept_tcp, acceptErrEvents, ht, ih]
  refine ⟨main errs rest, ?_⟩
  rw [main errs (AcceptResult.ok c :: rest)]
  rfl

/-- C9: an accepted HTTPS connection is served exactly when its TLS
handshake completes within the 200 ms timeout and succeeds; a dropped
connection (handshake error or timeout) produces no log output; and the
listener serves every accepted connection independently, each outcome
determined only by that connection's own input. -/
theorem https_handshake_policy (serveLogs : Nat → List String) (c : TlsConnInput)
    (conns : List TlsConnInput) :
    ((∃ s, (httpsConnTask serveLogs c).1 = .served s)
      ↔ c.handshakeMs ≤ 200 ∧ ∃ s, c.handshake = .ok s)
    ∧ ((httpsConnTask serveLogs c).2
        = match (httpsConnTask serveLogs c).1 with
          | .served s => serveLogs s
          | .dropped => [])
    ∧ (serve_https serveLogs conns).length = conns.length
    ∧ (∀ i : Nat, (serve_https serveLogs conns)[i]?
        = (conns[i]?).map (httpsConnTask serveLogs)) := by
  refine ⟨?_, ?_, by simp [serve_https], fun i => by simp [serve_https]⟩
  · by_cases hms : c.handshakeMs ≤ 200
    · cases hres : c.handshake <;> simp [httpsConnTask, timeoutWithin, hms, hres]
    · simp [httpsConnTask, timeoutWithin, hms]
  · by_cases hms : c.handshakeMs ≤ 200
    · cases hres : c.handshake <;> simp [httpsConnTask, timeoutWithin, hms, hres]
    · simp [httpsConnTask, timeoutWithin, hms]

/-- Counterexample for C10: at a concrete OS resolution failure for host
example.com, the resolver error's display message is the fixed string
"failed to resolve DNS name", which is not "name resolution failed for
host example.com" — the message does not name the host. -/
theorem resolver_message_names_no_host :
    resolveErrorMessage (.System { kind := .other 11, msg := "lookup failed" })
      = "failed to resolve DNS name"
    ∧ resolveErrorMessage (.System { kind := .other 11, msg := "lookup failed" })
      ≠ "name resolution failed for host example.com" :=
  ⟨rfl, by decide⟩

/-- C10 amended: every resolver error is reported upward with the uniform
message "failed to resolve DNS name" (which does not name the host), and
its source is the wrapped underlying cause: the OS io error for the System
variant and the DNS-protocol error for the TrustDns variant. -/
theorem resolver_error_uniform_report (e : ResolveError) (io0 : IoError) (d0 : DnsError) :
    resolveErrorMessage e = "failed to resolve DNS name"
    ∧ (ResolveError.System io0).sourceErr = some (.osErr io0)
    ∧ (ResolveError.TrustDns d0).sourceErr = some (.dnsErr d0) :=
  ⟨rfl, rfl, rfl⟩

end Spx
